import Mathlib

/-!
# Verification of the `plot-dst` acquisition / cache / parse pipeline

A shallow embedding of `src/plot-dst.py` (the Dst-index plotting tool).
Pure string manipulation, calendar arithmetic and the per-line parsing
loops are translated directly from the Python source; the external
collaborators (the `requests` HTTP library, the filesystem, and
BeautifulSoup's HTML element extraction) are modelled by explicit inputs:
an HTTP response value, the optional content of a cache file, and the list
of texts of the `<pre class="data">` elements found in a document.

Machine integers do not occur: Python integers are arbitrary precision,
so `Nat` / `Int` model them exactly.
-/

deriving instance DecidableEq for Except

namespace PlotDst

/-! ## Python string primitives

Python `str` values over the data handled here are ASCII; we model a
string by Lean's `String` and operate on its character list.
-/

/-- The whitespace characters recognised by Python's `str.strip()` and by
`int()` / `float()` (ASCII subset; the Unicode whitespace code points never
occur in these data files). -/
def pyIsSpace (c : Char) : Bool :=
  c == ' ' || c == '\t' || c == '\n' || c == '\r' || c == '\x0b' || c == '\x0c'

/-- Strip leading and trailing whitespace from a character list
(Python `str.strip()`). -/
def stripChars (l : List Char) : List Char :=
  ((l.dropWhile pyIsSpace).reverse.dropWhile pyIsSpace).reverse

/-- Python `s.strip()`. -/
def pyStrip (s : String) : String :=
  String.mk (stripChars s.toList)

/-- Python slicing `s[a:b]` for `0 ≤ a ≤ b`: characters at indices
`a, a+1, …, b-1`, silently clamped to the end of the string. -/
def pySlice (s : String) (a b : Nat) : String :=
  String.mk ((s.toList.drop a).take (b - a))

/-- Python `s[i]` for an index known (by a guard) to be in range.  Out of
range, Python raises `IndexError`; every use below is protected by a prior
length test, so the default value returned here is never observable. -/
def pyCharAt (s : String) (i : Nat) : Char :=
  s.toList.getD i ' '

/-- Test whether a character list begins with the given list. -/
def charsStartWith : List Char → List Char → Bool
  | _, [] => true
  | [], _ :: _ => false
  | c :: cs, p :: ps => (c == p) && charsStartWith cs ps

/-- Python `s.startswith(pre)`. -/
def pyStartsWith (s pre : String) : Bool :=
  charsStartWith s.toList pre.toList

/-- Split a character list at every `'\n'`, keeping empty pieces. -/
def splitLinesChars : List Char → List (List Char)
  | [] => [[]]
  | c :: cs =>
    if c = '\n' then [] :: splitLinesChars cs
    else
      match splitLinesChars cs with
      | [] => [[c]]
      | l :: ls => (c :: l) :: ls

/-- Python `s.split('\n')` (keeps empty pieces). -/
def pySplitLines (s : String) : List String :=
  (splitLinesChars s.toList).map String.mk

/-- Decimal value of a digit list. -/
def digitsVal (ds : List Char) : Nat :=
  ds.foldl (fun a c => a * 10 + (c.toNat - '0'.toNat)) 0

/-- A non-empty all-digit character list, as a natural number. -/
def parseDigits (ds : List Char) : Option Nat :=
  if ds.isEmpty then none
  else if ds.all Char.isDigit then some (digitsVal ds) else none

/-- Python `int(s)` (base 10): strip whitespace, optional sign, then a
non-empty digit string; anything else raises `ValueError`, modelled as
`none`.  (Python additionally accepts digit-grouping underscores and
non-ASCII decimal digits; neither can occur in the fixed-width numeric
columns parsed here.) -/
def parseIntPy (s : String) : Option Int :=
  match stripChars s.toList with
  | '+' :: ds => (parseDigits ds).map (fun n => (n : Int))
  | '-' :: ds => (parseDigits ds).map (fun n => -(n : Int))
  | ds => (parseDigits ds).map (fun n => (n : Int))

/-- Python `float(s)` restricted to the forms occurring in the sunspot
table's fixed-width columns: strip whitespace, optional sign, then
`digits`, `digits.digits`, `digits.` or `.digits`.  The value is modelled
exactly as a rational (the claims under verification never compare float
round-off, only which records are kept).  Exponent, `inf` and `nan` forms
never occur in these columns and are not modelled. -/
def parseFloatCore (ds : List Char) : Option Rat :=
  let ip := ds.takeWhile (fun c => c ≠ '.')
  let rest := ds.dropWhile (fun c => c ≠ '.')
  match rest with
  | [] => (parseDigits ip).map (fun n => (n : Rat))
  | '.' :: fp =>
    if (ip.isEmpty && fp.isEmpty) then none
    else if ip.all Char.isDigit && fp.all Char.isDigit then
      some ((digitsVal ip : Rat) + (digitsVal fp : Rat) / ((10 : Rat) ^ fp.length))
    else none
  | _ => none

/-- Python `float(s)` (see `parseFloatCore`). -/
def parseFloatPy (s : String) : Option Rat :=
  match stripChars s.toList with
  | '+' :: ds => parseFloatCore ds
  | '-' :: ds => (parseFloatCore ds).map (fun q => -q)
  | ds => parseFloatCore ds

/-! ## Calendar model

`datetime.datetime` with hour resolution and `datetime.date`; both are
proleptic Gregorian.  `dateutil.relativedelta(days = 1)` on a valid date
is one calendar-day advance with month/year rollover.  Python bounds
years to 1..9999 (`datetime.MAXYEAR`); the embedding leaves years
unbounded, as no parsed dataset approaches that bound. -/

/-- Gregorian leap year. -/
def isLeapYear (y : Nat) : Bool :=
  y % 4 == 0 && (y % 100 != 0 || y % 400 == 0)

/-- Number of days in a month (month given 1-based). -/
def daysInMonth (y m : Nat) : Nat :=
  match m with
  | 1 => 31 | 2 => if isLeapYear y then 29 else 28
  | 3 => 31 | 4 => 30 | 5 => 31 | 6 => 30
  | 7 => 31 | 8 => 31 | 9 => 30 | 10 => 31
  | 11 => 30 | 12 => 31
  | _ => 0

/-- Model of `datetime.datetime` restricted to the fields this program uses
(minute/second are always zero). -/
structure PyDatetime where
  year : Nat
  month : Nat
  day : Nat
  hour : Nat
deriving DecidableEq, Repr

/-- Model of `datetime.date`. -/
structure PyDate where
  year : Nat
  month : Nat
  day : Nat
deriving DecidableEq, Repr

/-- Embedding of `t + relativedelta(days = 1)`: advance a datetime by one calendar day,
rolling over month and year boundaries. -/
def nextDay (t : PyDatetime) : PyDatetime :=
  if t.day < daysInMonth t.year t.month then
    { t with day := t.day + 1 }
  else if t.month < 12 then
    { t with month := t.month + 1, day := 1 }
  else
    { year := t.year + 1, month := 1, day := 1, hour := t.hour }

/-- Chronological (lexicographic) strict order on datetimes. -/
def dtLt (a b : PyDatetime) : Prop :=
  a.year < b.year ∨ (a.year = b.year ∧
    (a.month < b.month ∨ (a.month = b.month ∧
      (a.day < b.day ∨ (a.day = b.day ∧ a.hour < b.hour)))))

instance : DecidablePred (fun p : PyDatetime × PyDatetime => dtLt p.1 p.2) :=
  fun _ => by unfold dtLt; infer_instance

instance (a b : PyDatetime) : Decidable (dtLt a b) := by
  unfold dtLt; infer_instance

/-! ## Errors

Python raises plain `Exception` / `ValueError` objects identified by their
message; each constructor below records one raise site of the source (with
the data it interpolates into the message, where a claim depends on it). -/

/-- The errors the pipeline can raise. -/
inductive PlotDstError where
  /-- Message "Multiple pre class=data is found in ...". -/
  | multiplePreData
  /-- Message "No pre class=data is found in ...". -/
  | noPreData
  /-- Error `ValueError` from `int(s)`; carries the offending string. -/
  | intParseFailure (s : String)
  /-- Error `ValueError` from `float(s)`; carries the offending string. -/
  | floatParseFailure (s : String)
  /-- Error `ValueError` from the `datetime(...)` / `date(...)` constructor on an
  out-of-range field. -/
  | invalidDate (y m d : Nat)
  /-- Error `Exception` raised by a downloader; carries the exact message string
  the source builds. -/
  | downloadFailure (msg : String)
deriving DecidableEq, Repr

/-! ## DstParser (`parse_dst_data_file`)

The source opens the HTML file, runs BeautifulSoup over it and collects
`root.find_all('pre', \x7b'class': 'data'\x7d)`.  BeautifulSoup is an external
collaborator: the embedding takes the list of the texts of the found
elements as input (`elements` below is the list of `e.text` for the found
elements, in document order). -/

/-- Source, lines 66–71: the starting column of the four-character value
field of hour `hour` (1-based) inside a per-day record line. -/
def fieldStart (hour : Nat) : Nat :=
  if hour ≤ 8 then hour * 4 - 1
  else if hour ≤ 16 then hour * 4
  else hour * 4 + 1

/-- Source, lines 72–73: the four-character slice
`line[start_index:end_index]` holding the value of hour `hour`. -/
def fieldAt (line : String) (hour : Nat) : String :=
  pySlice line (fieldStart hour) (fieldStart hour + 4)

/-- Source, lines 75–79: the timestamp assigned to hour `hour` (1..24) of
day `d`: `datetime(year, month, day, hour)` for hours 1..23, and
`datetime(year, month, day, 0) + relativedelta(days = 1)` for hour 24. -/
def hourTs (year month d hour : Nat) : PyDatetime :=
  if hour = 24 then nextDay ⟨year, month, d, 0⟩
  else ⟨year, month, d, hour⟩

/-- Hours of the per-day loop `for hour in range(1, 24 + 1)`. -/
def dstHours : List Nat := List.range' 1 24

/-- Parse the hour fields of a record line in loop order; the first field
that `int()` rejects raises `ValueError` (source, line 73). -/
def parseHourFields (line : String) : List Nat → Except PlotDstError (List Int)
  | [] => .ok []
  | h :: hs =>
    match parseIntPy (fieldAt line h) with
    | none => .error (.intParseFailure (fieldAt line h))
    | some v =>
      match parseHourFields line hs with
      | .error e => .error e
      | .ok vs => .ok (v :: vs)

/-- Parse one per-day record line (source, lines 62–82): the day of month
is `int(line[0:2])`, then the 24 hour fields are read.  The
`datetime(...)` constructor validates `month` and `day`
(raising `ValueError` on an out-of-range field); Python performs that
check when building the hour-1 timestamp, i.e. interleaved with the field
parsing — the set of accepted lines is the same either way, and no claim
depends on which of two errors a doubly-invalid line raises. -/
def parseDayLine (year month : Nat) (line : String) :
    Except PlotDstError (Nat × List Int) :=
  match parseIntPy (pySlice line 0 2) with
  | none => .error (.intParseFailure (pySlice line 0 2))
  | some dayInt =>
    if 1 ≤ dayInt ∧ dayInt ≤ (daysInMonth year month : Int)
        ∧ 1 ≤ month ∧ month ≤ 12 then
      match parseHourFields line dstHours with
      | .error e => .error e
      | .ok vs => .ok (dayInt.toNat, vs)
    else .error (.invalidDate year month dayInt.toNat)

/-- The 24 timestamps a successfully parsed record for day `d` appends to
`time_array`, in loop order. -/
def recordTimes (year month d : Nat) : List PyDatetime :=
  dstHours.map (hourTs year month d)

/-- The line loop of `parse_dst_data_file` (source, lines 56–82).
`sec` is the `data_section` flag: a line stripping to `"DAY"` sets it (and
is itself skipped); once set, every non-blank line is a per-day record
whose 24 samples are appended.  Any `ValueError` aborts the whole parse —
the accumulated arrays are never returned. -/
def dstLineLoop (year month : Nat) :
    List String → Bool → Except PlotDstError (List PyDatetime × List Int)
  | [], _ => .ok ([], [])
  | line :: rest, sec =>
    if pyStrip line = "DAY" then
      dstLineLoop year month rest true
    else if sec ∧ pyStrip line ≠ "" then
      match parseDayLine year month line with
      | .error e => .error e
      | .ok (day, vs) =>
        match dstLineLoop year month rest sec with
        | .error e => .error e
        | .ok (ts, ds) => .ok (recordTimes year month day ++ ts, vs ++ ds)
    else
      dstLineLoop year month rest sec

/-- Embedding of `parse_dst_data_file` (source, lines 40–84).  `elements`
is the list of texts of the `<pre class="data">` elements BeautifulSoup
finds; the source first rejects more than one, then zero, then iterates
over `elements[0].text.split('\n')` with `data_section = False`. -/
def parse_dst_data_file (elements : List String) (year month : Nat) :
    Except PlotDstError (List PyDatetime × List Int) :=
  if elements.length > 1 then .error .multiplePreData
  else
    match elements with
    | [] => .error .noPreData
    | b :: _ => dstLineLoop year month (pySplitLines b) false

/-! ## SunspotParser (`parse_sunspot_data_file`)

The source reads the cached text file with `f.readlines()` and scans the
lines; the embedding takes that line list as input. -/

/-- The data-record discriminator (source, line 125): the line starts with
`" 19"` or `" 20"`, has length greater than 8, and holds a space at
index 7. -/
def sunspotIsDataLine (line : String) : Bool :=
  (pyStartsWith line " 19" || pyStartsWith line " 20")
    && decide (8 < line.length) && (pyCharAt line 7 == ' ')

/-- Embedding of the line loop of `parse_sunspot_data_file` (source,
lines 112–143).  For a matching line: `year = int(line[1:5])`,
`month = int(line[8:10])`, the raw slice is `line[40:46]` and the smoothed
slice is `line[66:72]`; if either slice is blank after stripping the
record is skipped, otherwise both are converted by `float()` and
`date(year, month, 1)` (whose constructor validates its fields) is
appended together with both values. -/
def sunspotLineLoop :
    List String → Except PlotDstError (List PyDate × List Rat × List Rat)
  | [] => .ok ([], [], [])
  | line :: rest =>
    if sunspotIsDataLine line then
      match parseIntPy (pySlice line 1 5) with
      | none => .error (.intParseFailure (pySlice line 1 5))
      | some yr =>
        match parseIntPy (pySlice line 8 10) with
        | none => .error (.intParseFailure (pySlice line 8 10))
        | some mo =>
          let rawStr := pySlice line 40 46
          let smoothedStr := pySlice line 66 72
          if (pyStrip rawStr).length = 0 ∨ (pyStrip smoothedStr).length = 0 then
            sunspotLineLoop rest
          else
            match parseFloatPy rawStr with
            | none => .error (.floatParseFailure rawStr)
            | some raw =>
              match parseFloatPy smoothedStr with
              | none => .error (.floatParseFailure smoothedStr)
              | some smoothed =>
                if 1 ≤ yr ∧ 1 ≤ mo ∧ mo ≤ 12 then
                  match sunspotLineLoop rest with
                  | .error e => .error e
                  | .ok (ts, rs, ss) =>
                    .ok (⟨yr.toNat, mo.toNat, 1⟩ :: ts, raw :: rs, smoothed :: ss)
                else .error (.invalidDate yr.toNat mo.toNat 1)
    else
      sunspotLineLoop rest

/-- Embedding of `parse_sunspot_data_file` on the `readlines()` result. -/
def parse_sunspot_data_file (lines : List String) :
    Except PlotDstError (List PyDate × List Rat × List Rat) :=
  sunspotLineLoop lines

/-! ## CacheStore and Fetcher

The filesystem and the `requests` library are external collaborators.
A fetch is modelled by the `HttpResponse` the server would return, and the
destination file by a `FileState`: whether the parent directories have
been created and the optional content written at the destination path. -/

/-- An HTTP response: status code and body.  `requests` exposes the body
as `content` (bytes) and `text` (decoded string); both downloaders write
it unmodified, so one field models it. -/
structure HttpResponse where
  status : Nat
  body : String
deriving DecidableEq, Repr

/-- State of one destination path on disk. -/
structure FileState where
  parentsCreated : Bool
  written : Option String
deriving DecidableEq, Repr

/-- Zero-padded decimal rendering of width `w` (Python `f'{n:04d}'` and
`f'{n:02d}'`). -/
def padNum (n w : Nat) : String :=
  let s := toString n
  String.mk (List.replicate (w - s.length) '0') ++ s

/-- The Dst request URL (source, line 30). -/
def dstUrl (year month : Nat) : String :=
  "https://wdc.kugi.kyoto-u.ac.jp/dst_final/" ++ padNum year 4 ++ padNum month 2
    ++ "/index-j.html"

/-- The sunspot request URL (source, line 102). -/
def sunspotUrl : String :=
  "https://solarwww.mtk.nao.ac.jp/mitaka_solar/data03/sunspots/number/mtkmonthly.txt"

/-- The exact message of the `Exception` a downloader raises on a non-200
status (source, lines 33 and 105): it interpolates the URL only. -/
def downloadFailMsg (url : String) : String :=
  "Failed to download data from " ++ url

/-- The Dst cache file name `f'{year:04d}{month:02d}.html'` inside the
cache directory (source, `dst_cache_file_path`, line 21). -/
def dst_cache_file_path (year month : Nat) : String :=
  padNum year 4 ++ padNum month 2 ++ ".html"

/-- Embedding of `download_dst_data` (source, lines 23–38): create the
parent directories, perform the GET, raise on a non-200 status, otherwise
write `response.content` to the destination.  Returns the new state of
the destination file and the raised error, if any. -/
def download_dst_data (year month : Nat) (resp : HttpResponse)
    (st : FileState) : FileState × Option PlotDstError :=
  let st1 : FileState := { st with parentsCreated := true }
  if resp.status ≠ 200 then
    (st1, some (.downloadFailure (downloadFailMsg (dstUrl year month))))
  else
    ({ st1 with written := some resp.body }, none)

/-- Embedding of `download_sunspot_data` (source, lines 95–110); identical
control flow with the fixed sunspot URL, writing `response.text`. -/
def download_sunspot_data (resp : HttpResponse)
    (st : FileState) : FileState × Option PlotDstError :=
  let st1 : FileState := { st with parentsCreated := true }
  if resp.status ≠ 200 then
    (st1, some (.downloadFailure (downloadFailMsg sunspotUrl)))
  else
    ({ st1 with written := some resp.body }, none)

/-! ## Cache-or-fetch getters

`get_dst_data` / `get_sunspot_data` check plain-file presence of the cache
path and download only when absent.  The environment bundles what the
outside world supplies: the current cache-file content (`none` when the
file is absent), the response the server would give, and — for the Dst
dataset — BeautifulSoup's extraction of `<pre class="data">` texts from an
HTML document, modelled as an explicit function. -/

/-- External world as seen by `get_dst_data` for one month. -/
structure DstEnv where
  /-- Extraction of the texts of the `<pre class="data">` elements of an
  HTML document (BeautifulSoup, source lines 45–47). -/
  findPreData : String → List String
  /-- Content of the month's cache file, `none` when absent. -/
  cache : Option String
  /-- Response the server returns for the month's URL. -/
  resp : HttpResponse

/-- Embedding of `get_dst_data` (source, lines 86–93): if the cache file
is absent, download (writing the body on success); then parse the cache
file.  Returns the parse result paired with the number of Fetcher
invocations performed. -/
def get_dst_data (env : DstEnv) (year month : Nat) :
    Except PlotDstError (List PyDatetime × List Int) × Nat :=
  match env.cache with
  | some content => (parse_dst_data_file (env.findPreData content) year month, 0)
  | none =>
    if env.resp.status ≠ 200 then
      (.error (.downloadFailure (downloadFailMsg (dstUrl year month))), 1)
    else
      (parse_dst_data_file (env.findPreData env.resp.body) year month, 1)

/-- External world as seen by `get_sunspot_data`. -/
structure SunspotEnv where
  /-- Content of the sunspot cache file, `none` when absent. -/
  cache : Option (List String)
  /-- Response the server returns, body as its `readlines()` line list. -/
  respLines : List String
  /-- Status of that response. -/
  respStatus : Nat

/-- Embedding of `get_sunspot_data` (source, lines 145–150). -/
def get_sunspot_data (env : SunspotEnv) :
    Except PlotDstError (List PyDate × List Rat × List Rat) × Nat :=
  match env.cache with
  | some lines => (parse_sunspot_data_file lines, 0)
  | none =>
    if env.respStatus ≠ 200 then
      (.error (.downloadFailure (downloadFailMsg sunspotUrl)), 1)
    else
      (parse_sunspot_data_file env.respLines, 1)

/-! ## TimeSeriesAssembler (the month loop of `main`)

Source, lines 243–257: `first_month = start_date.replace(day = 1)`,
`end_month = end_date.replace(day = 1)`, then
`while current_date <= end_month:` fetch-and-parse the month and
`current_date += relativedelta(months = 1)`.  Python compares dates
lexicographically; the loop is embedded by fuel-indexed recursion with
exactly enough fuel for the month span, which coincides with the `while`
loop whenever the dates carry valid calendar months. -/

/-- Lexicographic (chronological) order on dates, as Python compares
`datetime.date` values. -/
def pyDateLe (a b : PyDate) : Prop :=
  a.year < b.year ∨ (a.year = b.year ∧
    (a.month < b.month ∨ (a.month = b.month ∧ a.day ≤ b.day)))

instance (a b : PyDate) : Decidable (pyDateLe a b) := by
  unfold pyDateLe; infer_instance

/-- Embedding of `current_date + relativedelta(months = 1)` on a day-1
date: the day is kept (day 1 exists in every month) and month 12 rolls
into January of the next year. -/
def addOneMonth (d : PyDate) : PyDate :=
  if d.month < 12 then { d with month := d.month + 1 }
  else { year := d.year + 1, month := 1, day := d.day }

/-- Linear month index used to measure the loop: `year * 12 + (month - 1)`. -/
def monthIdx (d : PyDate) : Nat :=
  d.year * 12 + (d.month - 1)

/-- Python `date.replace(day = 1)`. -/
def firstOfMonth (d : PyDate) : PyDate :=
  { d with day := 1 }

/-- The `while current_date <= end_month` loop of `main` (source, lines
245–257), with the per-month work `get_dst_data` and accumulation by
`extend`, as fuel-indexed recursion.  An exception from any month aborts
the whole loop. -/
def dstMonthsLoop (envs : Nat → Nat → DstEnv) (endMonth : PyDate) :
    Nat → PyDate → Except PlotDstError (List PyDatetime × List Int)
  | 0, _ => .ok ([], [])
  | fuel + 1, current =>
    if pyDateLe current endMonth then
      match (get_dst_data (envs current.year current.month)
              current.year current.month).1 with
      | .error e => .error e
      | .ok (ts, ds) =>
        match dstMonthsLoop envs endMonth fuel (addOneMonth current) with
        | .error e => .error e
        | .ok (tr, dr) => .ok (ts ++ tr, ds ++ dr)
    else .ok ([], [])

/-- The Dst-assembly part of `main` over an inclusive date range: the
month loop started at `start_date.replace(day = 1)` and bounded by
`end_date.replace(day = 1)`, with exactly enough fuel for the span. -/
def assembleDst (envs : Nat → Nat → DstEnv) (startDate endDate : PyDate) :
    Except PlotDstError (List PyDatetime × List Int) :=
  let firstMonth := firstOfMonth startDate
  let endMonth := firstOfMonth endDate
  dstMonthsLoop envs endMonth (monthIdx endMonth + 1 - monthIdx firstMonth)
    firstMonth

/-- The (year, month) pair of a linear month index. -/
def monthOfIdx (n : Nat) : Nat × Nat :=
  (n / 12, n % 12 + 1)

/-- The ascending list of calendar months from the month containing
`startDate` through the month containing `endDate`. -/
def monthsRange (startDate endDate : PyDate) : List (Nat × Nat) :=
  let a := monthIdx (firstOfMonth startDate)
  let b := monthIdx (firstOfMonth endDate)
  (List.range (b + 1 - a)).map (fun i => monthOfIdx (a + i))

/-! ## Helper lemmas -/

/-- A line loop run with the data-section flag still unset ignores every
line that does not strip to `"DAY"`. -/
lemma dstLineLoop_no_marker (year month : Nat) (ls : List String)
    (h : ∀ l ∈ ls, pyStrip l ≠ "DAY") :
    dstLineLoop year month ls false = .ok ([], []) := by
  induction ls with
  | nil => rfl
  | cons l ls ih =>
    unfold dstLineLoop
    rw [if_neg (h l (List.mem_cons_self l ls))]
    rw [if_neg (by simp)]
    exact ih (fun x hx => h x (List.mem_cons_of_mem l hx))

/-! ## C1 – C2: field columns and timestamps -/

/-- C1: for every hour `h` in 1..24, the four-character field of a per-day
record line is read from the slice starting at column `h*4 - 1` when
`h ≤ 8`, at `h*4` when `9 ≤ h ≤ 16`, and at `h*4 + 1` when `h ≥ 17`
(0-indexed); in particular hour 8 reads columns 31..34, hour 9 reads
36..39, and hour 17 reads 69..72. -/
theorem dst_field_column_rule (h : Nat) (h1 : 1 ≤ h) (h2 : h ≤ 24) :
    fieldStart h
      = (if h ≤ 8 then h * 4 - 1 else if 9 ≤ h ∧ h ≤ 16 then h * 4 else h * 4 + 1)
    ∧ (∀ line, fieldAt line h = pySlice line (fieldStart h) (fieldStart h + 4))
    ∧ fieldStart 8 = 31 ∧ fieldStart 9 = 36 ∧ fieldStart 17 = 69 := by
  refine ⟨?_, fun line => rfl, by decide, by decide, by decide⟩
  unfold fieldStart
  split_ifs <;> omega

/-- Witness for C1 at the boundary hours 8, 9 and 17. -/
theorem dst_field_column_rule_witness :
    fieldStart 8 = 31 ∧ fieldStart 9 = 36 ∧ fieldStart 17 = 69 :=
  ⟨(dst_field_column_rule 8 (by decide) (by decide)).2.2.1,
   (dst_field_column_rule 9 (by decide) (by decide)).2.2.2.1,
   (dst_field_column_rule 17 (by decide) (by decide)).2.2.2.2⟩

/-- C2: hour `h` in 1..23 of day `d` is stamped `(year, month, d, h)`, and
hour 24 is stamped `(year, month, d, 0)` advanced by one calendar day,
rolling over month and year boundaries; day 31 of December yields
January 1 of the next year, hour 0. -/
theorem dst_hour_timestamps (y m d h : Nat) (hh1 : 1 ≤ h) (hh2 : h ≤ 23) :
    hourTs y m d h = ⟨y, m, d, h⟩
    ∧ hourTs y m d 24 = nextDay ⟨y, m, d, 0⟩
    ∧ (d < daysInMonth y m → nextDay ⟨y, m, d, 0⟩ = ⟨y, m, d + 1, 0⟩)
    ∧ (daysInMonth y m ≤ d → m < 12 → nextDay ⟨y, m, d, 0⟩ = ⟨y, m + 1, 1, 0⟩)
    ∧ (daysInMonth y 12 ≤ d → nextDay ⟨y, 12, d, 0⟩ = ⟨y + 1, 1, 1, 0⟩)
    ∧ nextDay ⟨y, 12, 31, 0⟩ = ⟨y + 1, 1, 1, 0⟩ := by
  refine ⟨?_, rfl, ?_, ?_, ?_, ?_⟩
  · unfold hourTs
    rw [if_neg (by omega)]
  · intro hd
    unfold nextDay
    rw [if_pos hd]
  · intro hd hm
    unfold nextDay
    simp only
    rw [if_neg (by omega), if_pos hm]
  · intro hd
    have h31 : daysInMonth y 12 = 31 := rfl
    unfold nextDay
    simp only [h31]
    rw [if_neg (by omega), if_neg (by omega)]
  · have h31 : daysInMonth y 12 = 31 := rfl
    unfold nextDay
    simp only [h31]
    rw [if_neg (by omega), if_neg (by omega)]

/-- Witness for C2: hour 5 of 1957-03-10, and the December rollover. -/
theorem dst_hour_timestamps_witness :
    hourTs 1957 3 10 5 = ⟨1957, 3, 10, 5⟩
    ∧ nextDay ⟨1957, 12, 31, 0⟩ = ⟨1958, 1, 1, 0⟩ :=
  ⟨(dst_hour_timestamps 1957 3 10 5 (by decide) (by decide)).1,
   (dst_hour_timestamps 1957 12 31 5 (by decide) (by decide)).2.2.2.2.2⟩

/-! ## C6 and C10: block-count errors and an empty data section -/

/-- C6: parsing fails with the multiple-blocks error when more than one
`pre class="data"` block exists and with the no-block error when none
does, and proceeds to the line scan exactly when one block exists. -/
theorem dst_pre_block_count (elements : List String) (y m : Nat) :
    (elements.length > 1 → parse_dst_data_file elements y m = .error .multiplePreData)
    ∧ (elements.length = 0 → parse_dst_data_file elements y m = .error .noPreData)
    ∧ (∀ b, parse_dst_data_file [b] y m = dstLineLoop y m (pySplitLines b) false) := by
  refine ⟨?_, ?_, ?_⟩
  · intro hgt
    unfold parse_dst_data_file
    rw [if_pos hgt]
  · intro h0
    have : elements = [] := List.length_eq_zero.mp h0
    subst this
    rfl
  · intro b
    rfl

/-- Witness for C6: zero blocks and two blocks err; one block proceeds. -/
theorem dst_pre_block_count_witness :
    parse_dst_data_file [] 1957 1 = .error .noPreData
    ∧ parse_dst_data_file ["a", "b"] 1957 1 = .error .multiplePreData
    ∧ parse_dst_data_file ["DAY"] 1957 1
        = dstLineLoop 1957 1 (pySplitLines "DAY") false :=
  ⟨(dst_pre_block_count [] 1957 1).2.1 rfl,
   (dst_pre_block_count ["a", "b"] 1957 1).1 (by decide),
   (dst_pre_block_count ["DAY"] 1957 1).2.2 "DAY"⟩

/-- C10: with exactly one `pre class="data"` block none of whose lines
strips to `"DAY"`, the parser raises no error and returns two empty
sequences. -/
theorem dst_no_marker_empty (b : String) (y m : Nat)
    (hb : ∀ l ∈ pySplitLines b, pyStrip l ≠ "DAY") :
    parse_dst_data_file [b] y m = .ok ([], []) := by
  have := dstLineLoop_no_marker y m (pySplitLines b) hb
  unfold parse_dst_data_file
  rw [if_neg (by simp)]
  exact this

/-- Witness for C10 on a two-line block with no `DAY` marker. -/
theorem dst_no_marker_empty_witness :
    parse_dst_data_file ["hello\n 1  12"] 1957 1 = .ok ([], []) :=
  dst_no_marker_empty "hello\n 1  12" 1957 1 (by decide)

/-! ## C7: the Fetcher -/

/-- C7 counterexample: the claim says the failure value carries the URL
and the HTTP status.  The source raises
`Exception(f'Failed to download data from ...url...')`, which interpolates
the URL only: the error raised for status 404 is identical to the error
raised for status 500, so the status is not carried. -/
theorem download_error_not_status_carrying :
    (download_dst_data 1957 1 ⟨404, "x"⟩ ⟨false, none⟩).2
      = (download_dst_data 1957 1 ⟨500, "y"⟩ ⟨false, none⟩).2
    ∧ (download_dst_data 1957 1 ⟨404, "x"⟩ ⟨false, none⟩).2 ≠ none := by
  exact ⟨by decide, by decide⟩

/-- C7 (amended): a fetch succeeds iff the HTTP status is 200; on any
other status it fails with an error whose message names the URL (but not
the status) and the destination file is not written; on status 200 the
response body is written unmodified to the destination, the parent
directories having been created.  Both downloaders behave this way. -/
theorem download_success_iff (resp : HttpResponse) (y m : Nat)
    (st su : FileState) :
    ((download_dst_data y m resp st).2 = none ↔ resp.status = 200)
    ∧ (resp.status = 200 →
        (download_dst_data y m resp st).1.written = some resp.body
        ∧ (download_dst_data y m resp st).1.parentsCreated = true)
    ∧ (resp.status ≠ 200 →
        (download_dst_data y m resp st).1.written = st.written
        ∧ (download_dst_data y m resp st).2
            = some (.downloadFailure (downloadFailMsg (dstUrl y m))))
    ∧ ((download_sunspot_data resp su).2 = none ↔ resp.status = 200)
    ∧ (resp.status = 200 →
        (download_sunspot_data resp su).1.written = some resp.body
        ∧ (download_sunspot_data resp su).1.parentsCreated = true)
    ∧ (resp.status ≠ 200 →
        (download_sunspot_data resp su).1.written = su.written
        ∧ (download_sunspot_data resp su).2
            = some (.downloadFailure (downloadFailMsg sunspotUrl))) := by
  unfold download_dst_data download_sunspot_data
  by_cases hs : resp.status = 200
  · rw [if_neg (by omega), if_neg (by omega)]
    refine ⟨by simp [hs], fun _ => ⟨rfl, rfl⟩, fun h => absurd hs h, by simp [hs],
      fun _ => ⟨rfl, rfl⟩, fun h => absurd hs h⟩
  · rw [if_pos hs, if_pos hs]
    exact ⟨by simp [hs], fun h => absurd h hs, fun _ => ⟨rfl, rfl⟩, by simp [hs],
      fun h => absurd h hs, fun _ => ⟨rfl, rfl⟩⟩

/-- Witness for C7 (amended): a 200 response writes its body; a 404
response writes nothing and errs. -/
theorem download_success_iff_witness :
    (download_dst_data 1957 1 ⟨200, "body"⟩ ⟨false, none⟩).1.written = some "body"
    ∧ (download_dst_data 1957 1 ⟨404, "x"⟩ ⟨false, none⟩).1.written = none :=
  ⟨((download_success_iff ⟨200, "body"⟩ 1957 1 ⟨false, none⟩ ⟨false, none⟩).2.1
      rfl).1,
   ((download_success_iff ⟨404, "x"⟩ 1957 1 ⟨false, none⟩ ⟨false, none⟩).2.2.1
      (by decide)).1⟩

/-! ## C4: fatal parse failures

The error-handling claim for record lines has two halves.  A field that
`int()` rejects is indeed fatal with no partial record — proved below.  A
record line merely shorter than the full 101-column span is NOT always
fatal: Python slicing clamps silently, and when the truncated final slice
still parses as an integer the record is accepted (with a value read from
a truncated field).  `shortDstLine` exhibits this. -/

/-- A syntactically complete 101-column record line for day 1 (hours 1–8
value 2, hours 9–16 value 3, hours 17–24 value 4). -/
def fullDstLine : String :=
  " 1 " ++ "   2   2   2   2   2   2   2   2" ++ " "
    ++ "   3   3   3   3   3   3   3   3" ++ " "
    ++ "   4   4   4   4   4   4   4   4"

/-- A 98-column record line: shorter than the expected 101-column span,
with the hour-24 field truncated to the single character `'5'` — which
still parses as an integer. -/
def shortDstLine : String :=
  " 1 " ++ "   2   2   2   2   2   2   2   2" ++ " "
    ++ "   3   3   3   3   3   3   3   3" ++ " "
    ++ "   4   4   4   4   4   4   4" ++ "5"

/-- Whether an `Except` computation succeeded. -/
def exceptOk {ε α : Type} (e : Except ε α) : Bool :=
  match e with
  | .ok _ => true
  | .error _ => false

/-- C4 counterexample: a record line shorter than the expected column span
(98 < 101 columns) on which the parser nevertheless succeeds, reading the
truncated hour-24 field `"5"` as 5 — no fatal parse failure is raised. -/
theorem dst_short_line_accepted :
    shortDstLine.length = 98
    ∧ fieldStart 24 + 4 = 101
    ∧ parseDayLine 1957 1 shortDstLine
        = .ok (1, [2, 2, 2, 2, 2, 2, 2, 2, 3, 3, 3, 3, 3, 3, 3, 3,
                   4, 4, 4, 4, 4, 4, 4, 5])
    ∧ exceptOk (parse_dst_data_file ["DAY\n" ++ shortDstLine] 1957 1) = true := by
  refine ⟨by decide, by decide, by decide, by decide⟩


/-- If some hour listed fails to parse, the hour-field loop fails. -/
lemma parseHourFields_fails (line : String) (hs : List Nat) (h : Nat)
    (hmem : h ∈ hs) (hfail : parseIntPy (fieldAt line h) = none) :
    ∃ e, parseHourFields line hs = .error e := by
  induction hs with
  | nil => cases hmem
  | cons a hs ih =>
    unfold parseHourFields
    rcases List.mem_cons.mp hmem with rfl | hmem'
    · rw [hfail]
      exact ⟨_, rfl⟩
    · cases hpa : parseIntPy (fieldAt line a) with
      | none => exact ⟨_, rfl⟩
      | some v =>
        obtain ⟨e, he⟩ := ih hmem'
        rw [he]
        exact ⟨e, rfl⟩

/-- C4 (amended): any hour field that does not parse as a signed integer
is a fatal parse failure — the record line's parse errors and the whole
month parse aborts with no partial record.  (A record line shorter than
the expected column span is fatal only through this clause: its truncated
slices are usually empty or malformed, but a short line whose truncated
final field still parses as an integer is accepted, see
`dst_short_line_accepted`.) -/
theorem dst_bad_field_fatal (y m : Nat) (line : String)
    (hfield : ∃ h, 1 ≤ h ∧ h ≤ 24 ∧ parseIntPy (fieldAt line h) = none) :
    (∃ e, parseDayLine y m line = .error e)
    ∧ (pyStrip line ≠ "DAY" → pyStrip line ≠ "" →
        ∀ ls1 ls2, ∃ e, dstLineLoop y m (ls1 ++ line :: ls2) true = .error e) := by
  obtain ⟨h, hh1, hh2, hfail⟩ := hfield
  have hmem : h ∈ dstHours := by
    unfold dstHours
    rw [List.mem_range'_1]
    omega
  have hline : ∃ e, parseDayLine y m line = .error e := by
    cases hd : parseIntPy (pySlice line 0 2) with
    | none =>
      refine ⟨.intParseFailure (pySlice line 0 2), ?_⟩
      simp only [parseDayLine, hd]
    | some dayInt =>
      by_cases hv : 1 ≤ dayInt ∧ dayInt ≤ (daysInMonth y m : Int) ∧ 1 ≤ m ∧ m ≤ 12
      · obtain ⟨e, he⟩ := parseHourFields_fails line dstHours h hmem hfail
        refine ⟨e, ?_⟩
        simp only [parseDayLine, hd, if_pos hv, he]
      · refine ⟨.invalidDate y m dayInt.toNat, ?_⟩
        simp only [parseDayLine, hd, if_neg hv]
  refine ⟨hline, fun hnd hnb ls1 ls2 => ?_⟩
  induction ls1 with
  | nil =>
    obtain ⟨e, he⟩ := hline
    rw [List.nil_append]
    exact ⟨e, by simp [dstLineLoop, hnd, hnb, he]⟩
  | cons l ls ih =>
    obtain ⟨e, he⟩ := ih
    rw [List.cons_append]
    by_cases hl : pyStrip l = "DAY"
    · exact ⟨e, by simp [dstLineLoop, hl, he]⟩
    · by_cases hbl : pyStrip l = ""
      · exact ⟨e, by simp [dstLineLoop, hl, hbl, he]⟩
      · cases hpl : parseDayLine y m l with
        | error e' => exact ⟨e', by simp [dstLineLoop, hl, hbl, hpl]⟩
        | ok p =>
          obtain ⟨day, vs⟩ := p
          exact ⟨e, by simp [dstLineLoop, hl, hbl, hpl, he]⟩

/-- Witness for C4 (amended): the line `"ab"`, whose hour-1 field is the
empty slice, aborts the record and the loop. -/
theorem dst_bad_field_fatal_witness :
    (∃ e, parseDayLine 1957 1 "ab" = .error e)
    ∧ (∃ e, dstLineLoop 1957 1 ([] ++ "ab" :: []) true = .error e) :=
  ⟨(dst_bad_field_fatal 1957 1 "ab" ⟨1, by decide, by decide, by decide⟩).1,
   (dst_bad_field_fatal 1957 1 "ab" ⟨1, by decide, by decide, by decide⟩).2
     (by decide) (by decide) [] []⟩

/-! ## C5: sunspot record selection and skipping -/

/-- On success the three sunspot output sequences have equal length. -/
lemma sunspotLineLoop_lengths :
    ∀ (lines : List String) (ts : List PyDate) (rs ss : List Rat),
      sunspotLineLoop lines = .ok (ts, rs, ss) →
      ts.length = rs.length ∧ rs.length = ss.length := by
  intro lines
  induction lines with
  | nil =>
    intro ts rs ss h
    simp only [sunspotLineLoop] at h
    obtain ⟨rfl, rfl, rfl⟩ : ts = [] ∧ rs = [] ∧ ss = [] := by
      cases h; exact ⟨rfl, rfl, rfl⟩
    exact ⟨rfl, rfl⟩
  | cons line rest ih =>
    intro ts rs ss h
    by_cases hd : sunspotIsDataLine line
    · simp only [sunspotLineLoop, hd, if_true] at h
      cases hyr : parseIntPy (pySlice line 1 5) with
      | none => simp [hyr] at h
      | some yr =>
        simp only [hyr] at h
        cases hmo : parseIntPy (pySlice line 8 10) with
        | none => simp [hmo] at h
        | some mo =>
          simp only [hmo] at h
          by_cases hblank : (pyStrip (pySlice line 40 46)).length = 0
              ∨ (pyStrip (pySlice line 66 72)).length = 0
          · rw [if_pos hblank] at h
            exact ih ts rs ss h
          · rw [if_neg hblank] at h
            cases hraw : parseFloatPy (pySlice line 40 46) with
            | none => simp [hraw] at h
            | some raw =>
              simp only [hraw] at h
              cases hsm : parseFloatPy (pySlice line 66 72) with
              | none => simp [hsm] at h
              | some sm =>
                simp only [hsm] at h
                by_cases hv : 1 ≤ yr ∧ 1 ≤ mo ∧ mo ≤ 12
                · rw [if_pos hv] at h
                  cases hrec : sunspotLineLoop rest with
                  | error e => simp [hrec] at h
                  | ok p =>
                    obtain ⟨ts', rs', ss'⟩ := p
                    simp only [hrec] at h
                    cases h
                    obtain ⟨h1, h2⟩ := ih ts' rs' ss' hrec
                    exact ⟨by simp [h1], by simp [h2]⟩
                · rw [if_neg hv] at h
                  cases h
    · simp only [sunspotLineLoop, hd, if_false] at h
      exact ih ts rs ss h

/-- C5: a line is treated as a sunspot data record iff it starts with
`" 19"` or `" 20"`, is longer than 8 characters and has a space at
index 7; a matching record reads year from columns 1..4, month from
8..9, the raw count from 40..45 and the smoothed average from 66..71;
a record either of whose numeric slices is blank after stripping is
skipped from all three output sequences, and a kept record extends all
three sequences together, which therefore always have equal lengths. -/
theorem sunspot_record_selection :
    (∀ line, sunspotIsDataLine line
        = ((pyStartsWith line " 19" || pyStartsWith line " 20")
            && decide (8 < line.length) && (pyCharAt line 7 == ' ')))
    ∧ (∀ line rest, sunspotIsDataLine line = false →
        sunspotLineLoop (line :: rest) = sunspotLineLoop rest)
    ∧ (∀ line rest yr mo, sunspotIsDataLine line = true →
        parseIntPy (pySlice line 1 5) = some yr →
        parseIntPy (pySlice line 8 10) = some mo →
        ((pyStrip (pySlice line 40 46)).length = 0
          ∨ (pyStrip (pySlice line 66 72)).length = 0) →
        sunspotLineLoop (line :: rest) = sunspotLineLoop rest)
    ∧ (∀ line rest yr mo raw sm ts rs ss, sunspotIsDataLine line = true →
        parseIntPy (pySlice line 1 5) = some yr →
        parseIntPy (pySlice line 8 10) = some mo →
        ¬((pyStrip (pySlice line 40 46)).length = 0
            ∨ (pyStrip (pySlice line 66 72)).length = 0) →
        parseFloatPy (pySlice line 40 46) = some raw →
        parseFloatPy (pySlice line 66 72) = some sm →
        (1 ≤ yr ∧ 1 ≤ mo ∧ mo ≤ 12) →
        sunspotLineLoop rest = .ok (ts, rs, ss) →
        sunspotLineLoop (line :: rest)
          = .ok (⟨yr.toNat, mo.toNat, 1⟩ :: ts, raw :: rs, sm :: ss))
    ∧ (∀ lines ts rs ss, sunspotLineLoop lines = .ok (ts, rs, ss) →
        ts.length = rs.length ∧ rs.length = ss.length) := by
  refine ⟨fun line => rfl, ?_, ?_, ?_, sunspotLineLoop_lengths⟩
  · intro line rest hd
    simp [sunspotLineLoop, hd]
  · intro line rest yr mo hd hyr hmo hblank
    simp only [sunspotLineLoop, hd, if_true, hyr, hmo]
    rw [if_pos hblank]
  · intro line rest yr mo raw sm ts rs ss hd hyr hmo hblank hraw hsm hv hrest
    simp only [sunspotLineLoop, hd, if_true, hyr, hmo, hraw, hsm, hrest]
    rw [if_neg hblank, if_pos hv]

/-- A sunspot data line for 1957-01 whose numeric slices are blank. -/
def sunspotSkipLine : String :=
  " 1957   1" ++ String.mk (List.replicate 63 ' ')

/-- A sunspot data line for 1957-02 with raw slice `"  12.5"` at columns
40..45 and smoothed slice `"  10.5"` at columns 66..71. -/
def sunspotKeptLine : String :=
  " 1957   2" ++ String.mk (List.replicate 31 ' ') ++ "  12.5"
    ++ String.mk (List.replicate 20 ' ') ++ "  10.5"

/-- Witness for C5: a matching line with blank fields is skipped from all
three sequences; a matching line with both fields present is kept in all
three; a non-matching line is ignored. -/
theorem sunspot_record_selection_witness :
    sunspotLineLoop [sunspotSkipLine] = .ok ([], [], [])
    ∧ sunspotLineLoop [sunspotKeptLine]
        = .ok ([⟨1957, 2, 1⟩],
               [(parseFloatPy (pySlice sunspotKeptLine 40 46)).getD 0],
               [(parseFloatPy (pySlice sunspotKeptLine 66 72)).getD 0])
    ∧ sunspotLineLoop ["# comment"] = .ok ([], [], []) :=
  ⟨(sunspot_record_selection).2.2.1 sunspotSkipLine [] 1957 1
      (by decide) (by decide) (by decide) (by decide),
   (sunspot_record_selection).2.2.2.1 sunspotKeptLine [] 1957 2
      ((parseFloatPy (pySlice sunspotKeptLine 40 46)).getD 0)
      ((parseFloatPy (pySlice sunspotKeptLine 66 72)).getD 0) [] [] []
      (by decide) (by decide) (by decide) (by decide) rfl rfl (by decide) rfl,
   (sunspot_record_selection).2.1 "# comment" [] (by decide)⟩

/-! ## C9: cache presence decides fetching -/

/-- C9: a present cache file is parsed directly with zero Fetcher
invocations and the result ignores the network entirely; the Fetcher is
invoked (exactly once) iff the cache file is absent.  `get_dst_data`
checks nothing but presence: the cached content is fed to the parser
unconditionally.  Both dataset getters behave this way. -/
theorem cache_presence_decides_fetch (env : DstEnv) (senv : SunspotEnv)
    (y m : Nat) :
    ((get_dst_data env y m).2 = if env.cache.isSome then 0 else 1)
    ∧ (∀ c, env.cache = some c →
        get_dst_data env y m = (parse_dst_data_file (env.findPreData c) y m, 0))
    ∧ (∀ c resp', env.cache = some c →
        get_dst_data { env with resp := resp' } y m = get_dst_data env y m)
    ∧ ((get_sunspot_data senv).2 = if senv.cache.isSome then 0 else 1)
    ∧ (∀ ls, senv.cache = some ls →
        get_sunspot_data senv = (parse_sunspot_data_file ls, 0))
    ∧ (∀ ls st' rl', senv.cache = some ls →
        get_sunspot_data { senv with respStatus := st', respLines := rl' }
          = get_sunspot_data senv) := by
  refine ⟨?_, ?_, ?_, ?_, ?_, ?_⟩
  · cases hc : env.cache with
    | some c => simp [get_dst_data, hc]
    | none =>
      by_cases hs : env.resp.status ≠ 200 <;> simp [get_dst_data, hc, hs]
  · intro c hc
    simp [get_dst_data, hc]
  · intro c resp' hc
    simp [get_dst_data, hc]
  · cases hc : senv.cache with
    | some ls => simp [get_sunspot_data, hc]
    | none =>
      by_cases hs : senv.respStatus ≠ 200 <;> simp [get_sunspot_data, hc, hs]
  · intro ls hc
    simp [get_sunspot_data, hc]
  · intro ls st' rl' hc
    simp [get_sunspot_data, hc]

/-- Witness for C9: with the cache present, zero fetches and a parse of
the cached content, whatever the response status would have been. -/
theorem cache_presence_decides_fetch_witness :
    get_dst_data ⟨fun s => [s], some "DAY", ⟨500, "ignored"⟩⟩ 1957 1
      = (parse_dst_data_file ["DAY"] 1957 1, 0)
    ∧ get_sunspot_data ⟨some [], [], 500⟩ = (parse_sunspot_data_file [], 0) :=
  ⟨(cache_presence_decides_fetch ⟨fun s => [s], some "DAY", ⟨500, "ignored"⟩⟩
      ⟨some [], [], 500⟩ 1957 1).2.1 "DAY" rfl,
   (cache_presence_decides_fetch ⟨fun s => [s], some "DAY", ⟨500, "ignored"⟩⟩
      ⟨some [], [], 500⟩ 1957 1).2.2.2.2.1 [] rfl⟩

/-! ## C3: a well-formed month parses to a complete, strictly
increasing hourly series -/

/-- A chain over `List.range' a n` (step 1) follows from the relation
holding on every consecutive pair in the window. -/
lemma chain'_of_range' (S : Nat → Nat → Prop) :
    ∀ (n a : Nat), (∀ i, a ≤ i → i + 1 < a + n → S i (i + 1)) →
      List.Chain' S (List.range' a n) := by
  intro n
  induction n with
  | zero => intro a _; simp
  | succ k ih =>
    intro a h
    rw [List.range'_succ]
    rw [List.chain'_cons']
    constructor
    · intro b hb
      cases k with
      | zero => simp at hb
      | succ k' =>
        rw [List.range'_succ] at hb
        simp only [List.head?_cons, Option.mem_def, Option.some.injEq] at hb
        subst hb
        exact h a (Nat.le_refl a) (by omega)
    · have := ih (a + 1) (fun i hi1 hi2 => h i (by omega) (by omega))
      simpa using this

/-- Every hour's timestamp precedes the rolled next-day timestamp. -/
lemma dtLt_to_nextDay (y m d h : Nat) :
    dtLt ⟨y, m, d, h⟩ (nextDay ⟨y, m, d, 0⟩) := by
  unfold nextDay
  split_ifs with h1 h2 <;> simp [dtLt]

/-- The 24 timestamps of one record are strictly increasing. -/
lemma recordTimes_chain' (y m d : Nat) :
    List.Chain' dtLt (recordTimes y m d) := by
  unfold recordTimes
  rw [List.chain'_map]
  apply chain'_of_range'
  intro i hi1 hi2
  unfold dstHours at hi2
  by_cases h24 : i + 1 = 24
  · unfold hourTs
    rw [if_neg (by omega), if_pos h24]
    exact dtLt_to_nextDay y m d i
  · unfold hourTs
    rw [if_neg (by omega), if_neg h24]
    simp [dtLt]

/-- There are 24 timestamps per record. -/
lemma recordTimes_length (y m d : Nat) : (recordTimes y m d).length = 24 := by
  simp [recordTimes, dstHours]

/-- The first timestamp of a record is hour 1 of its day. -/
lemma recordTimes_head (y m d : Nat) :
    (recordTimes y m d).head? = some ⟨y, m, d, 1⟩ := by
  unfold recordTimes dstHours
  rw [show (24 : Nat) = 23 + 1 from rfl, List.range'_succ]
  simp [hourTs]

/-- The last timestamp of a record is the rolled next-day midnight. -/
lemma recordTimes_getLast (y m d : Nat) :
    (recordTimes y m d).getLast? = some (nextDay ⟨y, m, d, 0⟩) := by
  unfold recordTimes dstHours
  rw [show (24 : Nat) = 23 + 1 from rfl, List.range'_concat, List.map_append]
  rw [show List.map (hourTs y m d) [1 + 1 * 23] = [hourTs y m d 24] from by norm_num]
  rw [List.getLast?_concat]
  rfl

/-- The concatenated timestamps of records for consecutive days
`d0, d0 + 1, …` within one month are strictly increasing, as long as the
days stay within the month (the last may be the month's final day). -/
lemma dst_days_chain (y m : Nat) :
    ∀ (k d0 : Nat), 1 ≤ d0 → d0 + k ≤ daysInMonth y m + 1 →
      List.Chain' dtLt ((List.range' d0 k).flatMap (recordTimes y m)) := by
  intro k
  induction k with
  | zero => intro d0 _ _; simp
  | succ k ih =>
    intro d0 hd0 hbound
    rw [List.range'_succ, List.flatMap_cons, List.chain'_append]
    refine ⟨recordTimes_chain' y m d0, ih (d0 + 1) (by omega) (by omega), ?_⟩
    intro x hx z hz
    rw [recordTimes_getLast] at hx
    simp only [Option.mem_def, Option.some.injEq] at hx
    subst hx
    cases k with
    | zero => simp at hz
    | succ k' =>
      rw [List.range'_succ, List.flatMap_cons, List.head?_append] at hz
      rw [recordTimes_head] at hz
      simp only [Option.or_some, Option.mem_def, Option.some.injEq] at hz
      subst hz
      have hlt : d0 < daysInMonth y m := by omega
      unfold nextDay
      rw [if_pos (by simpa using hlt)]
      show dtLt ⟨y, m, d0 + 1, 0⟩ ⟨y, m, d0 + 1, 1⟩
      unfold dtLt
      exact Or.inr ⟨rfl, Or.inr ⟨rfl, Or.inr ⟨rfl, Nat.zero_lt_one⟩⟩⟩

/-- The hour-field loop returns one value per listed hour. -/
lemma parseHourFields_ok_length (line : String) :
    ∀ (hs : List Nat) (vs : List Int),
      parseHourFields line hs = .ok vs → vs.length = hs.length := by
  intro hs
  induction hs with
  | nil =>
    intro vs h
    cases h
    rfl
  | cons a hs ih =>
    intro vs h
    unfold parseHourFields at h
    cases hpa : parseIntPy (fieldAt line a) with
    | none => rw [hpa] at h; cases h
    | some v =>
      rw [hpa] at h
      cases hrest : parseHourFields line hs with
      | error e => rw [hrest] at h; cases h
      | ok vs2 =>
        rw [hrest] at h
        cases h
        simp [ih vs2 hrest]

/-- What a successful record parse guarantees: 24 values, a day within
the month, and a valid month. -/
lemma parseDayLine_ok (y m : Nat) (line : String) (d : Nat) (vs : List Int)
    (h : parseDayLine y m line = .ok (d, vs)) :
    vs.length = 24 ∧ 1 ≤ d ∧ d ≤ daysInMonth y m ∧ 1 ≤ m ∧ m ≤ 12 := by
  unfold parseDayLine at h
  cases hd : parseIntPy (pySlice line 0 2) with
  | none => rw [hd] at h; cases h
  | some dayInt =>
    simp only [hd] at h
    by_cases hv : 1 ≤ dayInt ∧ dayInt ≤ (daysInMonth y m : Int) ∧ 1 ≤ m ∧ m ≤ 12
    · rw [if_pos hv] at h
      cases hfs : parseHourFields line dstHours with
      | error e => rw [hfs] at h; cases h
      | ok vs2 =>
        rw [hfs] at h
        cases h
        have hlen := parseHourFields_ok_length line dstHours _ hfs
        refine ⟨by simpa [dstHours] using hlen, ?_, ?_, hv.2.2.1, hv.2.2.2⟩
        · omega
        · omega
    · rw [if_neg hv] at h
      cases h

/-- In the data section, a list of record lines parsing to consecutive
days `d0, d0 + 1, …` produces exactly the per-record samples, in file
order. -/
lemma dstLineLoop_records (y m : Nat) :
    ∀ (rls : List String) (d0 : Nat) (vals : Nat → List Int),
      (∀ i (hi : i < rls.length),
        pyStrip rls[i] ≠ "DAY" ∧ pyStrip rls[i] ≠ ""
          ∧ parseDayLine y m rls[i] = .ok (d0 + i, vals i)) →
      dstLineLoop y m rls true
        = .ok ((List.range' d0 rls.length).flatMap (recordTimes y m),
               (List.range rls.length).flatMap vals) := by
  intro rls
  induction rls with
  | nil => intro d0 vals _; simp [dstLineLoop]
  | cons l ls ih =>
    intro d0 vals h
    have h0 := h 0 (by simp)
    simp only [List.getElem_cons_zero, Nat.add_zero] at h0
    have hshift : ∀ i (hi : i < ls.length),
        pyStrip ls[i] ≠ "DAY" ∧ pyStrip ls[i] ≠ ""
          ∧ parseDayLine y m ls[i] = .ok (d0 + 1 + i, vals (i + 1)) := by
      intro i hi
      have := h (i + 1) (by simpa using Nat.succ_lt_succ hi)
      simp only [List.getElem_cons_succ] at this
      refine ⟨this.1, this.2.1, ?_⟩
      rw [show d0 + 1 + i = d0 + (i + 1) from by omega]
      exact this.2.2
    have hrec := ih (d0 + 1) (fun i => vals (i + 1)) hshift
    rw [show dstLineLoop y m (l :: ls) true
          = (match parseDayLine y m l with
             | .error e => .error e
             | .ok (day, vs) =>
               match dstLineLoop y m ls true with
               | .error e => .error e
               | .ok (ts, ds) =>
                 .ok (recordTimes y m day ++ ts, vs ++ ds)) from by
        simp [dstLineLoop, h0.1, h0.2.1]]
    rw [h0.2.2, hrec]
    simp only [List.length_cons]
    rw [List.range'_succ, List.flatMap_cons]
    rw [List.range_succ_eq_map, List.flatMap_cons, List.flatMap_map]

/-- The loop ignores everything before the `DAY` marker and enters the
data section right after it. -/
lemma dstLineLoop_header (y m : Nat) :
    ∀ (pre : List String) (marker : String) (recLines : List String),
      (∀ l ∈ pre, pyStrip l ≠ "DAY") → pyStrip marker = "DAY" →
      dstLineLoop y m (pre ++ marker :: recLines) false
        = dstLineLoop y m recLines true := by
  intro pre
  induction pre with
  | nil =>
    intro marker recLines _ hm
    simp [dstLineLoop, hm]
  | cons l pre ih =>
    intro marker recLines hpre hm
    rw [List.cons_append]
    have hl := hpre l (List.mem_cons_self l pre)
    rw [show dstLineLoop y m (l :: (pre ++ marker :: recLines)) false
          = dstLineLoop y m (pre ++ marker :: recLines) false from by
        simp [dstLineLoop, hl]]
    exact ih marker recLines (fun x hx => hpre x (List.mem_cons_of_mem l hx)) hm

/-- C3: for a well-formed month block — arbitrary header lines, the `DAY`
marker, then record lines for days 1..N in file order, all fields
parsing, with N at most the month's length — the parser returns exactly
`24 * N` samples whose timestamps are precisely the canonical hourly
sequence of the month prefix, strictly increasing in file order, with no
duplicate and no missing hour. -/
theorem dst_month_complete (y m N : Nat) (block : String)
    (pre : List String) (marker : String) (recLines : List String)
    (vals : Nat → List Int)
    (hsplit : pySplitLines block = pre ++ marker :: recLines)
    (hpre : ∀ l ∈ pre, pyStrip l ≠ "DAY")
    (hmarker : pyStrip marker = "DAY")
    (hlen : recLines.length = N)
    (hrec : ∀ i (hi : i < recLines.length),
      pyStrip recLines[i] ≠ "DAY" ∧ pyStrip recLines[i] ≠ ""
        ∧ parseDayLine y m recLines[i] = .ok (1 + i, vals i))
    (hN : N ≤ daysInMonth y m) :
    parse_dst_data_file [block] y m
      = .ok ((List.range' 1 N).flatMap (recordTimes y m),
             (List.range N).flatMap vals)
    ∧ ((List.range' 1 N).flatMap (recordTimes y m)).length = 24 * N
    ∧ ((List.range N).flatMap vals).length = 24 * N
    ∧ List.Chain' dtLt ((List.range' 1 N).flatMap (recordTimes y m)) := by
  subst hlen
  refine ⟨?_, ?_, ?_, ?_⟩
  · have hstep : parse_dst_data_file [block] y m
        = dstLineLoop y m (pySplitLines block) false := rfl
    rw [hstep, hsplit, dstLineLoop_header y m pre marker recLines hpre hmarker]
    exact dstLineLoop_records y m recLines 1 vals hrec
  · rw [List.length_flatMap]
    have hconst : ∀ d ∈ List.range' 1 recLines.length,
        (List.length ∘ recordTimes y m) d = 24 := by
      intro d _
      simp [recordTimes_length]
    rw [List.map_congr_left hconst]
    simp [List.map_const', mul_comm]
  · rw [List.length_flatMap]
    have hconst : ∀ i ∈ List.range recLines.length, (List.length ∘ vals) i = 24 := by
      intro i hi
      rw [List.mem_range] at hi
      have := (parseDayLine_ok y m recLines[i] (1 + i) (vals i)
        (hrec i hi).2.2).1
      simpa using this
    rw [List.map_congr_left hconst]
    simp [List.map_const', mul_comm]
  · exact dst_days_chain y m recLines.length 1 (Nat.le_refl 1) (by omega)

/-- Witness for C3: a one-day month block built from `fullDstLine`. -/
theorem dst_month_complete_witness :
    parse_dst_data_file ["DAY\n" ++ fullDstLine] 1957 1
      = .ok ((List.range' 1 1).flatMap (recordTimes 1957 1),
             (List.range 1).flatMap (fun _ =>
               [2, 2, 2, 2, 2, 2, 2, 2, 3, 3, 3, 3, 3, 3, 3, 3,
                4, 4, 4, 4, 4, 4, 4, 4]))
    ∧ List.Chain' dtLt ((List.range' 1 1).flatMap (recordTimes 1957 1)) := by
  have h := dst_month_complete 1957 1 1 ("DAY\n" ++ fullDstLine)
    [] "DAY" [fullDstLine]
    (fun _ => [2, 2, 2, 2, 2, 2, 2, 2, 3, 3, 3, 3, 3, 3, 3, 3,
               4, 4, 4, 4, 4, 4, 4, 4])
    (by decide) (by simp) (by decide) rfl
    (by
      intro i hi
      have h0 : i = 0 := by simpa using hi
      subst h0
      refine ⟨?_, ?_, ?_⟩ <;> simp only [List.getElem_cons_zero] <;> decide)
    (by decide)
  exact ⟨h.1, h.2.2.2⟩

/-! ## C8: the assembler processes exactly the requested months -/

/-- Advancing one month increments the linear month index and keeps the
month valid and the day unchanged. -/
lemma addOneMonth_spec (d : PyDate) (h1 : 1 ≤ d.month) (h2 : d.month ≤ 12) :
    monthIdx (addOneMonth d) = monthIdx d + 1
    ∧ 1 ≤ (addOneMonth d).month ∧ (addOneMonth d).month ≤ 12
    ∧ (addOneMonth d).day = d.day := by
  unfold addOneMonth monthIdx
  by_cases hm : d.month < 12
  · rw [if_pos hm]
    exact ⟨by show d.year * 12 + (d.month + 1 - 1)
              = d.year * 12 + (d.month - 1) + 1; omega,
           by show 1 ≤ d.month + 1; omega,
           by show d.month + 1 ≤ 12; omega, rfl⟩
  · rw [if_neg hm]
    exact ⟨by show (d.year + 1) * 12 + (1 - 1)
              = d.year * 12 + (d.month - 1) + 1; omega,
           Nat.le_refl 1,
           by show (1 : Nat) ≤ 12; omega, rfl⟩

/-- For dates with valid months and equal days, Python's date order
coincides with the linear month index order. -/
lemma pyDateLe_iff_monthIdx (a b : PyDate) (ha1 : 1 ≤ a.month)
    (ha2 : a.month ≤ 12) (hb1 : 1 ≤ b.month) (hb2 : b.month ≤ 12)
    (hd : a.day = b.day) :
    pyDateLe a b ↔ monthIdx a ≤ monthIdx b := by
  unfold pyDateLe monthIdx
  constructor
  · intro h
    rcases h with h | ⟨he, h | ⟨hm, _⟩⟩ <;> omega
  · intro h
    by_cases hy : a.year < b.year
    · exact Or.inl hy
    · have hy2 : a.year = b.year := by omega
      by_cases hm : a.month < b.month
      · exact Or.inr ⟨hy2, Or.inl hm⟩
      · have hm2 : a.month = b.month := by omega
        exact Or.inr ⟨hy2, Or.inr ⟨hm2, by omega⟩⟩

/-- The (year, month) pair recovered from a valid date's month index. -/
lemma monthOfIdx_monthIdx (d : PyDate) (h1 : 1 ≤ d.month) (h2 : d.month ≤ 12) :
    monthOfIdx (monthIdx d) = (d.year, d.month) := by
  unfold monthOfIdx monthIdx
  refine Prod.ext ?_ ?_ <;> simp only <;> omega

/-- The month loop, run with fuel equal to the number of months still to
process, concatenates the per-month results in ascending month order. -/
lemma dstMonthsLoop_eq (envs : Nat → Nat → DstEnv) (endMonth : PyDate)
    (T : Nat → List PyDatetime) (D : Nat → List Int)
    (hb1 : 1 ≤ endMonth.month) (hb2 : endMonth.month ≤ 12) :
    ∀ (k : Nat) (cur : PyDate), 1 ≤ cur.month → cur.month ≤ 12 →
      cur.day = endMonth.day →
      monthIdx endMonth + 1 - monthIdx cur = k →
      (∀ n, monthIdx cur ≤ n → n ≤ monthIdx endMonth →
        (get_dst_data (envs (monthOfIdx n).1 (monthOfIdx n).2)
            (monthOfIdx n).1 (monthOfIdx n).2).1
          = .ok (T n, D n)) →
      dstMonthsLoop envs endMonth k cur
        = .ok ((List.range' (monthIdx cur) k).flatMap T,
               (List.range' (monthIdx cur) k).flatMap D) := by
  intro k
  induction k with
  | zero => intro cur _ _ _ _ _; simp [dstMonthsLoop]
  | succ k ih =>
    intro cur hc1 hc2 hday hk hok
    have hle : monthIdx cur ≤ monthIdx endMonth := by omega
    have hguard : pyDateLe cur endMonth :=
      (pyDateLe_iff_monthIdx cur endMonth hc1 hc2 hb1 hb2 hday).mpr hle
    have hcur : monthOfIdx (monthIdx cur) = (cur.year, cur.month) :=
      monthOfIdx_monthIdx cur hc1 hc2
    have hget := hok (monthIdx cur) (Nat.le_refl _) hle
    rw [hcur] at hget
    obtain ⟨hstep, hm1, hm2, hdy⟩ := addOneMonth_spec cur hc1 hc2
    have hrec := ih (addOneMonth cur) hm1 hm2 (by rw [hdy]; exact hday)
      (by omega)
      (fun n hn1 hn2 => hok n (by omega) hn2)
    unfold dstMonthsLoop
    rw [if_pos hguard]
    rw [hget, hrec, hstep]
    rw [List.range'_succ, List.flatMap_cons, List.flatMap_cons]

/-- C8: over an inclusive date range the assembler processes exactly the
calendar months from the month containing the start date through the
month containing the end date, in ascending order, and returns the
concatenation of the per-month parser outputs in that order; the month
list contains a (year, month) pair iff it lies between the two bounding
months, is strictly ascending, and for January 5 – February 20, 1957 it
is exactly January then February 1957. -/
theorem dst_assembler_months (envs : Nat → Nat → DstEnv)
    (startDate endDate : PyDate)
    (T D : Nat × Nat → _)
    (hs1 : 1 ≤ startDate.month) (hs2 : startDate.month ≤ 12)
    (he1 : 1 ≤ endDate.month) (he2 : endDate.month ≤ 12)
    (hok : ∀ p ∈ monthsRange startDate endDate,
      (get_dst_data (envs p.1 p.2) p.1 p.2).1 = .ok (T p, D p)) :
    assembleDst envs startDate endDate
      = .ok ((monthsRange startDate endDate).flatMap T,
             (monthsRange startDate endDate).flatMap D)
    ∧ (∀ y' m', (y', m') ∈ monthsRange startDate endDate ↔
        (1 ≤ m' ∧ m' ≤ 12
          ∧ monthIdx (firstOfMonth startDate) ≤ y' * 12 + (m' - 1)
          ∧ y' * 12 + (m' - 1) ≤ monthIdx (firstOfMonth endDate)))
    ∧ List.Chain' (fun p q : Nat × Nat =>
        p.1 * 12 + (p.2 - 1) < q.1 * 12 + (q.2 - 1))
        (monthsRange startDate endDate)
    ∧ monthsRange ⟨1957, 1, 5⟩ ⟨1957, 2, 20⟩ = [(1957, 1), (1957, 2)] := by
  have hidx : ∀ n, (monthOfIdx n).1 * 12 + ((monthOfIdx n).2 - 1) = n := by
    intro n
    unfold monthOfIdx
    simp only
    omega
  refine ⟨?_, ?_, ?_, by decide⟩
  · have hrw : monthsRange startDate endDate
        = (List.range' (monthIdx (firstOfMonth startDate))
            (monthIdx (firstOfMonth endDate) + 1
              - monthIdx (firstOfMonth startDate))).map monthOfIdx := by
      unfold monthsRange
      simp only [List.range'_eq_map_range, List.map_map]
      rfl
    have hok2 : ∀ n, monthIdx (firstOfMonth startDate) ≤ n →
        n ≤ monthIdx (firstOfMonth endDate) →
        (get_dst_data (envs (monthOfIdx n).1 (monthOfIdx n).2)
            (monthOfIdx n).1 (monthOfIdx n).2).1
          = .ok (T (monthOfIdx n), D (monthOfIdx n)) := by
      intro n hn1 hn2
      have hmem : monthOfIdx n ∈ monthsRange startDate endDate := by
        rw [hrw]
        exact List.mem_map_of_mem monthOfIdx (by rw [List.mem_range'_1]; omega)
      have := hok (monthOfIdx n) hmem
      simpa using this
    have hloop := dstMonthsLoop_eq envs (firstOfMonth endDate)
      (fun n => T (monthOfIdx n)) (fun n => D (monthOfIdx n))
      (by simpa [firstOfMonth] using he1) (by simpa [firstOfMonth] using he2)
      (monthIdx (firstOfMonth endDate) + 1 - monthIdx (firstOfMonth startDate))
      (firstOfMonth startDate)
      (by simpa [firstOfMonth] using hs1) (by simpa [firstOfMonth] using hs2)
      rfl rfl hok2
    show dstMonthsLoop envs (firstOfMonth endDate)
        (monthIdx (firstOfMonth endDate) + 1 - monthIdx (firstOfMonth startDate))
        (firstOfMonth startDate)
      = .ok ((monthsRange startDate endDate).flatMap T,
             (monthsRange startDate endDate).flatMap D)
    rw [hloop, hrw]
    rw [List.flatMap_map, List.flatMap_map]
  · intro y' m'
    unfold monthsRange
    constructor
    · intro hmem
      simp only [List.mem_map, List.mem_range] at hmem
      obtain ⟨i, hi, heq⟩ := hmem
      have h1 := hidx (monthIdx (firstOfMonth startDate) + i)
      rw [heq] at h1
      simp only at h1
      have hm' : 1 ≤ m' ∧ m' ≤ 12 := by
        have : (monthOfIdx (monthIdx (firstOfMonth startDate) + i)).2
            = (monthIdx (firstOfMonth startDate) + i) % 12 + 1 := rfl
        rw [heq] at this
        simp only at this
        omega
      exact ⟨hm'.1, hm'.2, by omega, by omega⟩
    · intro ⟨hm1, hm2, hge, hle⟩
      simp only [List.mem_map, List.mem_range]
      refine ⟨y' * 12 + (m' - 1) - monthIdx (firstOfMonth startDate), by omega, ?_⟩
      have harg : monthIdx (firstOfMonth startDate)
          + (y' * 12 + (m' - 1) - monthIdx (firstOfMonth startDate))
          = y' * 12 + (m' - 1) := by omega
      rw [harg]
      unfold monthOfIdx
      refine Prod.ext ?_ ?_ <;> simp only <;> omega
  · unfold monthsRange
    rw [List.chain'_map]
    rw [List.range_eq_range']
    apply chain'_of_range'
    intro i _ _
    simp only [hidx]
    omega

/-- Witness for C8: an environment whose caches all hold an empty data
section, assembled over January 5 – February 20, 1957. -/
theorem dst_assembler_months_witness :
    assembleDst (fun _ _ => ⟨fun s => [s], some "DAY", ⟨200, ""⟩⟩)
        ⟨1957, 1, 5⟩ ⟨1957, 2, 20⟩
      = .ok ((monthsRange ⟨1957, 1, 5⟩ ⟨1957, 2, 20⟩).flatMap (fun _ => []),
             (monthsRange ⟨1957, 1, 5⟩ ⟨1957, 2, 20⟩).flatMap (fun _ => []))
    ∧ monthsRange ⟨1957, 1, 5⟩ ⟨1957, 2, 20⟩ = [(1957, 1), (1957, 2)] :=
  ⟨(dst_assembler_months (fun _ _ => ⟨fun s => [s], some "DAY", ⟨200, ""⟩⟩)
      ⟨1957, 1, 5⟩ ⟨1957, 2, 20⟩ (fun _ => []) (fun _ => [])
      (by decide) (by decide) (by decide) (by decide)
      (by intro p _; rfl)).1,
   (dst_assembler_months (fun _ _ => ⟨fun s => [s], some "DAY", ⟨200, ""⟩⟩)
      ⟨1957, 1, 5⟩ ⟨1957, 2, 20⟩ (fun _ => []) (fun _ => [])
      (by decide) (by decide) (by decide) (by decide)
      (by intro p _; rfl)).2.2.2⟩

end PlotDst
